import Mathlib

/-!
Verification of the four-stage travel-recommendation pipeline of this
repository (`place_search.py`, `place_image.py`, `place_info.py`,
`main.py`, `api.py`), as a shallow embedding in Lean 4.

Modelling conventions, applied uniformly:
  * Python dicts that act as records become structures; a key a dict may
    lack is modelled by the field's default value ("" for strings, [] for
    lists, none for optional values) — exactly the value the Python code
    reads through `.get(key, default)` at every use site embedded here.
  * Python dicts that act as maps (category key -> data) become
    association lists `List (String x Data)`; the code builds them in
    insertion order, which the list order mirrors.
  * External services (the OpenAI web-search call, the Google Places
    HTTP calls, the LangChain agent) are oracles passed in as function
    parameters.  A call that can raise is modelled as `Except String v`:
    `.ok v` is a normal return and `.error e` an exception whose
    `str(e)` is `e`.  `search_place` and `get_place_details` catch their
    own exceptions and return `[]` / `{}`, so their oracles return plain
    values.
  * Functions whose Python source issues service calls inside a loop
    additionally return a trace (a list) of the calls they issued, so
    call-count properties are statements about the trace.
  * String handling is over `List Char`; `lower`, `strip` and the regex
    heuristics of `filter_irrelevant_results` are translated for the
    ASCII alphabet (Python's `re`/`str.lower` Unicode extras are outside
    the inputs these filters see).  Python `len` on `str` counts code
    points, as `List.length` on `String.data` does.
-/

namespace Travel

/-! ### String helpers (ASCII translations of str.lower/str.strip and
substring search used by the regex heuristics) -/

/-- Python `s.lower()` over the characters of `s` (ASCII). -/
def lowerStr (s : String) : List Char := s.data.map Char.toLower

/-- Python `s.strip()`: drop whitespace from both ends. -/
def trimChars (cs : List Char) : List Char :=
  ((cs.dropWhile Char.isWhitespace).reverse.dropWhile Char.isWhitespace).reverse

/-- Python `s.strip()` as a `String`. -/
def strTrim (s : String) : String := String.mk (trimChars s.data)

/-- Python `len(s)` (code points). -/
def strLen (s : String) : Nat := s.data.length

/-- `pat` occurs as a contiguous run inside `cs` (Python `pat in s`). -/
def charsContain (pat : List Char) : List Char → Bool
  | [] => pat.isEmpty
  | c :: rest => pat.isPrefixOf (c :: rest) || charsContain pat rest

/-- Case-sensitive Python `pat in s`. -/
def containsStr (pat s : String) : Bool := charsContain pat.data s.data

/-- Case-insensitive containment: `pat.lower() in s.lower()`. -/
def containsCI (pat s : String) : Bool := charsContain (lowerStr pat) (lowerStr s)

/-- Regex step `\d+post`: one or more ASCII digits followed immediately by
`post`, matched at the head of `cs` (greedy; every `post` used below starts
with a non-digit, so greediness is exact). -/
def matchDigitsThen (post : List Char) (cs : List Char) : Bool :=
  !(cs.takeWhile Char.isDigit).isEmpty && post.isPrefixOf (cs.dropWhile Char.isDigit)

/-- Regex `^pre\d+post` on an already-lowered character list. -/
def startsWithDigitsThen (pre post : List Char) (cs : List Char) : Bool :=
  pre.isPrefixOf cs && matchDigitsThen post (cs.drop pre.length)

/-- Regex `UPDATED \d{4}` matched at the head of `cs` (lowered). -/
def updatedYearHere (cs : List Char) : Bool :=
  "updated ".data.isPrefixOf cs && decide (4 ≤ (cs.drop 8).length)
    && ((cs.drop 8).take 4).all Char.isDigit

/-- `re.search(r'UPDATED \d{4}', name, re.IGNORECASE)`: the pattern occurs
at some position of the (lowered) name. -/
def containsUpdatedYear : List Char → Bool
  | [] => false
  | c :: rest => updatedYearHere (c :: rest) || containsUpdatedYear rest

/-! ### Data model -/

/-- `coordinates` sub-dict built by `enrich_places_with_images`
(`geometry.location.lat/lng`, absent modelled as `none`; the numeric JSON
values are kept abstract as strings). -/
structure Coordinates where
  lat : Option String := none
  lng : Option String := none
deriving DecidableEq

/-- A place record as it flows through the pipeline.  The discovery stage
fills `name`/`description`/`rating`/`address`/`source`; the enrichment
stage may fill the rest; the research stage may fill `ai_insights`.
A key a stage has not written is the field's default. -/
structure Place where
  name : String := ""
  description : String := ""
  rating : String := ""
  address : String := ""
  source : String := ""
  photos : List String := []
  google_rating : Option String := none
  website : Option String := none
  phone : Option String := none
  opening_hours : List String := []
  coordinates : Option Coordinates := none
  ai_insights : Option String := none
deriving DecidableEq

instance : Inhabited Place := ⟨{}⟩

/-- One category's value in the category map:
`{"category": cat_desc, "places": [...]}`. -/
structure CatData where
  category : String := ""
  places : List Place := []
deriving DecidableEq

instance : Inhabited CatData := ⟨{}⟩

/-! ### config.py -/

/-- `config.CATEGORIES`: the static category-key -> human-label mapping. -/
def CATEGORIES : List (String × String) := [
  ("natural_attractions", "🏞️ Natural Attractions (parks, beaches, mountains, waterfalls)"),
  ("cultural_heritage", "🏛️ Cultural & Heritage (museums, temples, historical sites)"),
  ("urban_modern", "🏙️ Urban & Modern (skyscrapers, shopping, theaters)"),
  ("adventure_outdoor", "🏔️ Adventure & Outdoor (trekking, diving, extreme sports)"),
  ("recreation_leisure", "🎢 Recreation & Leisure (theme parks, zoos, spas)"),
  ("sports_events", "🏟️ Sports & Events (stadiums, festivals, sporting venues)"),
  ("health_wellness", "🧘‍♀️ Health & Wellness (spas, wellness centers, medical tourism)"),
  ("religious_spiritual", "🕉️ Religious & Spiritual (pilgrimage sites, sacred places)"),
  ("educational_scientific", "🔬 Educational & Scientific (science centers, universities)"),
  ("special_interest", "🍷 Special Interest (culinary tours, photography, niche tourism)")]

/-! ### place_search.py — PlacesDiscoveryService -/

/-- The `irrelevant_patterns` regex list of `filter_irrelevant_results`,
each `re.search(pattern, name, re.IGNORECASE)` translated over the lowered
name. -/
def matchesIrrelevantPattern (name : String) : Bool :=
  let n := lowerStr name
  startsWithDigitsThen "the ".data " best".data n
  || startsWithDigitsThen "top ".data [] n
  || startsWithDigitsThen "best ".data [] n
  || matchDigitsThen " best".data n
  || containsUpdatedYear n
  || charsContain "- students".data n
  || charsContain "near me".data n
  || matchDigitsThen ".".data n
  || charsContain "manufacturers".data n
  || charsContain "supplier".data n
  || charsContain "tours in".data n
  || charsContain "activities in".data n
  || charsContain "things to do".data n

/-- The `location_generic` list of `filter_irrelevant_results`. -/
def location_generic (location : String) : List String :=
  [location ++ " -",
   "in " ++ location,
   location ++ " Guide",
   location ++ " Tourism",
   "Culture & Heritage - India",
   "Explore " ++ location,
   "Visiting " ++ location]

/-- `generic.lower() in name.lower()` for some generic pattern. -/
def matchesLocationGeneric (location name : String) : Bool :=
  (location_generic location).any (fun generic => containsCI generic name)

/-- The `is_irrelevant` flag computed for a (stripped, non-short) name:
regex patterns, generic location patterns, a `'...'` occurrence, or an
over-length name. -/
def nameIsIrrelevant (location name : String) : Bool :=
  matchesIrrelevantPattern name || matchesLocationGeneric location name
  || containsStr "..." name || decide (80 < strLen name)

/-- `PlacesDiscoveryService.filter_irrelevant_results`. -/
def filter_irrelevant_results : List Place → String → List Place
  | [], _ => []
  | place :: rest, location =>
    let name := strTrim place.name
    if name = "" ∨ strLen name < 3 then
      filter_irrelevant_results rest location
    else if nameIsIrrelevant location name then
      filter_irrelevant_results rest location
    else
      place :: filter_irrelevant_results rest location

/-- `PlacesDiscoveryService.get_places_with_openai_web`: `response` is the
outcome of the OpenAI web-search call after JSON extraction (`.ok places`
for a parsed JSON array; `.error e` for a raised exception or a response
with no JSON array, both of which the source turns into `[]`). -/
def get_places_with_openai_web (response : Except String (List Place)) (location : String) :
    List Place :=
  match response with
  | .error _ => []
  | .ok places => filter_irrelevant_results places location

/-- Python dict insertion `d[k] = v`: an existing key keeps its position
and takes the new value; a new key goes to the end. -/
def dictInsert (d : List (String × String)) (k v : String) : List (String × String) :=
  if d.any (fun p => decide (p.1 = k)) then
    d.map (fun p => if p.1 = k then (k, v) else p)
  else d ++ [(k, v)]

/-- One step of the dict comprehension of `categorize_places`: a selected
key present in `CATEGORIES` is inserted with its label, any other key is
skipped. -/
def select_step (d : List (String × String)) (key : String) : List (String × String) :=
  match List.lookup key CATEGORIES with
  | some v => dictInsert d key v
  | none => d

/-- The `categories_to_search` selection of `categorize_places`:
`CATEGORIES` when `selected_categories` is `None` or empty (Python
falsiness of `[]`), otherwise the dict comprehension
`{key: CATEGORIES[key] for key in selected_categories if key in CATEGORIES}`. -/
def categories_to_search : Option (List String) → List (String × String)
  | none => CATEGORIES
  | some sel =>
    if sel = [] then CATEGORIES
    else sel.foldl select_step []

/-- `cat_desc.split('(')[0].strip()`. -/
def categoryDisplayName (cat_desc : String) : String :=
  strTrim (String.mk (cat_desc.data.takeWhile (fun c => c ≠ '(')))

/-- The per-category result processing of `categorize_places`: rebuild each
web result as a five-key place record and apply the quality filter
`name and len(name) > 2 and len(name) < 80` (on the stripped name). -/
def build_final_places (web_results : List Place) : List Place :=
  web_results.filterMap (fun result =>
    let place : Place := { name := result.name, description := result.description,
                           rating := result.rating, address := result.address,
                           source := "openai_web" }
    let name := strTrim place.name
    if name ≠ "" ∧ 2 < strLen name ∧ strLen name < 80 then some place else none)

/-- The category loop of `categorize_places` over the categories to
search; `web location category_name` is the OpenAI web-search oracle. -/
def categorize_loop (web : String → String → Except String (List Place)) (location : String) :
    List (String × String) → List (String × CatData)
  | [] => []
  | (cat_key, cat_desc) :: rest =>
    let category_name := categoryDisplayName cat_desc
    let web_results := get_places_with_openai_web (web location category_name) location
    let final_places := build_final_places web_results
    if final_places = [] then categorize_loop web location rest
    else (cat_key, { category := cat_desc, places := final_places }) ::
      categorize_loop web location rest

/-- `PlacesDiscoveryService.categorize_places`. -/
def categorize_places (web : String → String → Except String (List Place))
    (location : String) (selected_categories : Option (List String)) :
    List (String × CatData) :=
  categorize_loop web location (categories_to_search selected_categories)

/-! ### place_image.py — GooglePlacesService -/

/-- One entry of the `"photos"` array of a text-search result. -/
structure GPhoto where
  photo_reference : Option String := none
deriving DecidableEq

/-- One entry of the `"results"` array of a Places text-search response
(`geometry.location` flattened into `lat`/`lng`; the numeric `rating`
kept abstract as a string). -/
structure GPlace where
  place_id : Option String := none
  rating : Option String := none
  formatted_address : Option String := none
  photos : List GPhoto := []
  lat : Option String := none
  lng : Option String := none
deriving DecidableEq

/-- The `"result"` object of a Places details response. -/
structure PlaceDetails where
  website : Option String := none
  formatted_phone_number : Option String := none
  opening_hours_weekday_text : List String := []
deriving DecidableEq

/-- The Google Places HTTP service: `search` is
`search_place(place_name, location)` and `details` is
`get_place_details(place_id)`.  Both source functions catch their own
exceptions and return `[]` / `{}`, so the oracles return plain values. -/
structure GoogleOracle where
  search : String → String → List GPlace
  details : String → PlaceDetails

/-- `GooglePlacesService.places_url`. -/
def places_url : String := "https://maps.googleapis.com/maps/api/place"

/-- `GooglePlacesService.get_photo_url` (default `max_width=400`). -/
def get_photo_url (api_key photo_reference : String) : String :=
  places_url ++ "/photo?maxwidth=400&photoreference=" ++ photo_reference ++ "&key=" ++ api_key

/-- The body of the inner loop of `enrich_places_with_images` for one
place: text-search it; on no results keep the original record, otherwise
fetch details (skipped for a missing or falsy `place_id`), build up to 3
photo URLs from the truthy `photo_reference`s of the first 3 photos, and
merge the Google data into the record. -/
def enrich_one (o : GoogleOracle) (api_key location : String) (place : Place) : Place :=
  match o.search place.name location with
  | [] => place
  | google_place :: _ =>
    let details := match google_place.place_id with
      | some pid => if pid = "" then ({} : PlaceDetails) else o.details pid
      | none => ({} : PlaceDetails)
    let photo_urls := (google_place.photos.take 3).filterMap (fun photo =>
      match photo.photo_reference with
      | some r => if r = "" then none else some (get_photo_url api_key r)
      | none => none)
    { place with
      google_rating := google_place.rating,
      address := google_place.formatted_address.getD place.address,
      photos := photo_urls,
      website := details.website,
      phone := details.formatted_phone_number,
      opening_hours := details.opening_hours_weekday_text,
      coordinates := some { lat := google_place.lat, lng := google_place.lng } }

/-- The `enriched_places` loop of `enrich_places_with_images` over one
category's places. -/
def enrich_cat_places (o : GoogleOracle) (api_key location : String) : List Place → List Place
  | [] => []
  | place :: rest =>
    enrich_one o api_key location place :: enrich_cat_places o api_key location rest

/-- `GooglePlacesService.enrich_places_with_images`. -/
def enrich_places_with_images (o : GoogleOracle) (api_key location : String) :
    List (String × CatData) → List (String × CatData)
  | [] => []
  | (category, cat_data) :: rest =>
    (category, { cat_data with places := enrich_cat_places o api_key location cat_data.places }) ::
      enrich_places_with_images o api_key location rest

/-! ### place_info.py — LangChainInfoService -/

/-- The record `get_location_info` returns. -/
structure LocationInfo where
  location : String := ""
  description : String := ""
  sources : String := ""
deriving DecidableEq

/-- The record `get_place_insights` returns. -/
structure PlaceInsights where
  place : String := ""
  insights : String := ""
  research_sources : String := ""
deriving DecidableEq

/-- The dict `enrich_with_research` returns. -/
structure ResearchData where
  location_overview : LocationInfo := {}
  categories : List (String × CatData) := []
deriving DecidableEq

/-- The query string `get_location_info` sends to the agent. -/
def location_query (location : String) : String :=
  "Tell me about " ++ location ++
    " - its history, culture, geography, and what makes it special for tourists"

/-- The query string `get_place_insights` sends to the agent. -/
def insights_query (place_name location : String) : String :=
  "Provide interesting facts and travel tips about " ++ place_name ++ " in " ++ location

/-- `LangChainInfoService.get_location_info`; `agent q` is the outcome of
`self.agent.invoke` on query `q` (`.ok out` its `result["output"]`,
`.error e` a raised exception). -/
def get_location_info (agent : String → Except String String) (location : String) :
    LocationInfo :=
  match agent (location_query location) with
  | .ok out =>
    { location := location, description := out, sources := "Wikipedia and Tavily Search" }
  | .error _ =>
    { location := location,
      description := "Unable to fetch detailed information about " ++ location,
      sources := "Error" }

/-- `LangChainInfoService.get_place_insights`. -/
def get_place_insights (agent : String → Except String String)
    (place_name location : String) : PlaceInsights :=
  match agent (insights_query place_name location) with
  | .ok out => { place := place_name, insights := out, research_sources := "Wikipedia and Tavily" }
  | .error _ =>
    { place := place_name,
      insights := "Unable to fetch insights about " ++ place_name,
      research_sources := "Error" }

/-- The category loop of `enrich_with_research`: a category with places
gets `ai_insights` written onto its first place; the second component is
the trace of insights queries the loop sends to the agent. -/
def research_categories (agent : String → Except String String) (location : String) :
    List (String × CatData) → List (String × CatData) × List String
  | [] => ([], [])
  | (category, cat_data) :: rest =>
    let r := research_categories agent location rest
    match cat_data.places with
    | [] => ((category, cat_data) :: r.1, r.2)
    | top_place :: others =>
      let insights := get_place_insights agent top_place.name location
      ((category,
        { cat_data with
          places := { top_place with ai_insights := some insights.insights } :: others }) :: r.1,
       insights_query top_place.name location :: r.2)

/-- `LangChainInfoService.enrich_with_research`; the second component is
the full trace of agent queries issued (the location-overview query
first, then one insights query per category with places). -/
def enrich_with_research (agent : String → Except String String)
    (enriched_places_data : List (String × CatData)) (location : String) :
    ResearchData × List String :=
  let location_info := get_location_info agent location
  let r := research_categories agent location enriched_places_data
  ({ location_overview := location_info, categories := r.1 },
   location_query location :: r.2)

/-! ### main.py — TravelAssistant pipeline -/

/-- The flattened place object `finalize_result_node` builds
(exactly these three keys). -/
structure FinalPlace where
  tourist_place_name : String
  tourist_description : String
  place_image_url : String
deriving DecidableEq

/-- The LangGraph state dict. -/
structure PipelineState where
  location : String := ""
  selected_categories : Option (List String) := none
  raw_places : List (String × CatData) := []
  enriched_places : List (String × CatData) := []
  research_data : ResearchData := {}
  final_result : List (String × List FinalPlace) := []
  errors : List String := []
  step : String := "starting"
deriving DecidableEq

/-- `TravelAssistant.discover_places_node`: `outcome` is the
`categorize_places` call (`.ok` its return value, `.error e` a raised
exception with message `e`). -/
def discover_places_node (outcome : Except String (List (String × CatData)))
    (state : PipelineState) : PipelineState :=
  match outcome with
  | .ok raw_places => { state with raw_places := raw_places, step := "discovery_complete" }
  | .error e => { state with errors := state.errors ++ ["Discovery error: " ++ e] }

/-- `TravelAssistant.enrich_with_images_node`: `outcome` is the
`enrich_places_with_images` call. -/
def enrich_with_images_node (outcome : Except String (List (String × CatData)))
    (state : PipelineState) : PipelineState :=
  match outcome with
  | .ok enriched_places =>
    { state with enriched_places := enriched_places, step := "enrichment_complete" }
  | .error e =>
    { state with
      errors := state.errors ++ ["Enrichment error: " ++ e]
      enriched_places := state.raw_places }

/-- `TravelAssistant.add_research_node`: `outcome` is the
`enrich_with_research` call. -/
def add_research_node (outcome : Except String ResearchData)
    (state : PipelineState) : PipelineState :=
  match outcome with
  | .ok research_data =>
    { state with research_data := research_data, step := "research_complete" }
  | .error e =>
    { state with
      errors := state.errors ++ ["Research error: " ++ e]
      research_data := { location_overview := { description := "Research unavailable" }
                         categories := state.enriched_places } }

/-- The place object built by the inner loop of `finalize_result_node`:
`{"tourist_place_name": ..., "tourist_description": ..., "place_image_url":
first photo or ""}`. -/
def make_place_obj (place : Place) : FinalPlace :=
  { tourist_place_name := place.name,
    tourist_description := place.description,
    place_image_url := match place.photos with | [] => "" | url :: _ => url }

/-- The category loop of `finalize_result_node`: flatten each category's
places and keep only categories whose flattened list is non-empty. -/
def finalize_categories : List (String × CatData) → List (String × List FinalPlace)
  | [] => []
  | (cat_key, cat_data) :: rest =>
    let places_list := cat_data.places.map make_place_obj
    if places_list = [] then finalize_categories rest
    else (cat_key, places_list) :: finalize_categories rest

/-- `TravelAssistant.finalize_result_node` (it has no try/except and no
service call). -/
def finalize_result_node (state : PipelineState) : PipelineState :=
  { state with
    final_result := finalize_categories state.research_data.categories
    step := "complete" }

/-- One run of the compiled linear LangGraph workflow
discover -> enrich -> research -> finalize, each service call's outcome
given as a parameter. -/
def run_pipeline (d e : Except String (List (String × CatData)))
    (r : Except String ResearchData) (state : PipelineState) : PipelineState :=
  finalize_result_node (add_research_node r (enrich_with_images_node e (discover_places_node d state)))

/-! ### api.py — POST /recommendations -/

/-- A FastAPI `HTTPException(status_code, detail)`. -/
structure HTTPErrorModel where
  status : Nat
  detail : String
deriving DecidableEq

/-- The `TravelResponse` model (the wall-clock `timestamp` field is
outside the model). -/
structure TravelResponse where
  place_name : String
  selected_categories : List String
  recommendations : List (String × List FinalPlace)
deriving DecidableEq

/-- The default category selection
`[category_keys[0], category_keys[1], category_keys[2]]`. -/
def default_selected_categories : List String :=
  [(CATEGORIES.map Prod.fst).getD 0 "", (CATEGORIES.map Prod.fst).getD 1 "",
   (CATEGORIES.map Prod.fst).getD 2 ""]

/-- The 400 detail for invalid categories (`str.format` of the two lists
abbreviated to comma-separated keys). -/
def invalid_categories_detail (invalid : List String) : String :=
  "Invalid categories: " ++ String.intercalate ", " invalid ++
    ". Available categories: " ++ String.intercalate ", " (CATEGORIES.map Prod.fst)

/-- The status of an error result, if any. -/
def errStatus : Except HTTPErrorModel TravelResponse → Option Nat
  | .error err => some err.status
  | .ok _ => none

/-- `api.get_travel_recommendations` (POST /recommendations): `pipeline`
is `travel_assistant.generate_travel_recommendations`; the second
component is the trace of pipeline invocations (arguments passed). -/
def api_recommendations
    (pipeline : String → List String → List (String × List FinalPlace))
    (place_name : String) (categories : Option (List String)) :
    Except HTTPErrorModel TravelResponse × List (String × List String) :=
  if strTrim place_name = "" then
    (.error { status := 400, detail := "Place name is required" }, [])
  else
    let pn := strTrim place_name
    let selected : Except String (List String) :=
      match categories with
      | some cats =>
        if cats = [] then .ok default_selected_categories
        else
          let invalid := cats.filter (fun c => (List.lookup c CATEGORIES).isNone)
          if invalid = [] then .ok cats
          else .error (invalid_categories_detail invalid)
      | none => .ok default_selected_categories
    match selected with
    | .error d => (.error { status := 400, detail := d }, [])
    | .ok sel =>
      (.ok { place_name := pn, selected_categories := sel, recommendations := pipeline pn sel },
       [(pn, sel)])

/-! ### Spec-side definitions (written from the claims' words, to be
compared with the code translations above) -/

/-- The keep predicate of claim C4, read off the claim's words: the
stripped name has length at least 3 and at most 80, does not contain
`...`, matches none of the irrelevant regex patterns and contains none of
the location-derived generic substrings. -/
def keep_place (location : String) (place : Place) : Bool :=
  let name := strTrim place.name
  decide (3 ≤ strLen name) && decide (strLen name ≤ 80) && !containsStr "..." name
    && !matchesIrrelevantPattern name && !matchesLocationGeneric location name

/-- The output shape of claim C2, read off the claim's words: keep exactly
the categories with a non-empty places list, each mapped to its flattened
places. -/
def finalize_spec (cats : List (String × CatData)) : List (String × List FinalPlace) :=
  (cats.filter (fun p => !p.2.places.isEmpty)).map
    (fun p => (p.1, p.2.places.map make_place_obj))

/-- Number of place entries carried by a web-search outcome. -/
def response_size : Except String (List Place) → Nat
  | .ok l => l.length
  | .error _ => 0

/-! ### Helper lemmas -/

/-- `filter_irrelevant_results` is exactly `List.filter keep_place`. -/
theorem filter_irrelevant_eq_filter (places : List Place) (location : String) :
    filter_irrelevant_results places location = places.filter (keep_place location) := by
  induction places with
  | nil => rfl
  | cons place rest ih =>
    rw [List.filter_cons]
    show (if strTrim place.name = "" ∨ strLen (strTrim place.name) < 3 then
            filter_irrelevant_results rest location
          else if nameIsIrrelevant location (strTrim place.name) then
            filter_irrelevant_results rest location
          else place :: filter_irrelevant_results rest location) = _
    by_cases h1 : strTrim place.name = "" ∨ strLen (strTrim place.name) < 3
    · have hk : keep_place location place = false := by
        have h3 : ¬ 3 ≤ strLen (strTrim place.name) := by
          rcases h1 with h | h
          · rw [h]; decide
          · omega
        simp [keep_place, h3]
      simp [h1, hk, ih]
    · by_cases h2 : nameIsIrrelevant location (strTrim place.name)
      · have hk : keep_place location place = false := by
          unfold nameIsIrrelevant at h2
          rcases (Bool.or_eq_true _ _).mp h2 with h2 | hL
          · rcases (Bool.or_eq_true _ _).mp h2 with h2 | hD
            · rcases (Bool.or_eq_true _ _).mp h2 with hP | hG
              · simp [keep_place, hP]
              · simp [keep_place, hG]
            · simp [keep_place, hD]
          · have : ¬ strLen (strTrim place.name) ≤ 80 := by
              have := of_decide_eq_true hL; omega
            simp [keep_place, this]
        simp [h1, h2, hk, ih]
      · have hk : keep_place location place = true := by
          rw [not_or] at h1
          obtain ⟨hne, hlen⟩ := h1
          rw [Bool.not_eq_true] at h2
          unfold nameIsIrrelevant at h2
          simp only [Bool.or_eq_false_iff] at h2
          obtain ⟨⟨⟨hP, hG⟩, hD⟩, hL⟩ := h2
          have hL2 : strLen (strTrim place.name) ≤ 80 := by
            have := of_decide_eq_false hL; omega
          have h3 : 3 ≤ strLen (strTrim place.name) := by omega
          simp [keep_place, h3, hL2, hP, hG, hD]
        simp [h1, h2, hk, ih]

/-- The relevance filter never adds entries. -/
theorem filter_irrelevant_length_le (places : List Place) (location : String) :
    (filter_irrelevant_results places location).length ≤ places.length := by
  rw [filter_irrelevant_eq_filter]
  exact List.length_filter_le _ _

/-! ### C1 / C4 theorems -/

/-- C1: in every service-backed stage node of `TravelAssistant`, a raised
exception appends an error string to `errors` and carries the previous
stage's data forward (a discovery failure leaves `raw_places` untouched,
an enrichment failure sets `enriched_places := raw_places`, a research
failure wraps `enriched_places` with a placeholder overview), and the
pipeline still runs every following stage to completion. -/
theorem C1_stage_failure_degrades_gracefully (s : PipelineState) (e : String) :
    discover_places_node (.error e) s
        = { s with errors := s.errors ++ ["Discovery error: " ++ e] } ∧
    enrich_with_images_node (.error e) s
        = { s with
            errors := s.errors ++ ["Enrichment error: " ++ e]
            enriched_places := s.raw_places } ∧
    add_research_node (.error e) s
        = { s with
            errors := s.errors ++ ["Research error: " ++ e]
            research_data := { location_overview := { description := "Research unavailable" }
                               categories := s.enriched_places } } ∧
    (∀ (d e2 : Except String (List (String × CatData))) (r : Except String ResearchData),
        (run_pipeline d e2 r s).step = "complete") :=
  ⟨rfl, rfl, rfl, fun _ _ _ => rfl⟩

/-- C4: `filter_irrelevant_results` returns exactly the order-preserving
subsequence of its input whose stripped names have length within [3, 80],
contain no `...`, match no irrelevant regex pattern and contain no
location-derived generic substring — that is, it is `List.filter` of the
claim's predicate `keep_place`. -/
theorem C4_filter_is_exact_subsequence (places : List Place) (location : String) :
    filter_irrelevant_results places location = places.filter (keep_place location) :=
  filter_irrelevant_eq_filter places location

/-! ### C2: the finalize stage -/

/-- The category loop of `finalize_result_node` equals the claim's
filter-then-map shape. -/
theorem finalize_categories_eq_spec (cats : List (String × CatData)) :
    finalize_categories cats = finalize_spec cats := by
  induction cats with
  | nil => rfl
  | cons p rest ih =>
    obtain ⟨cat_key, cat_data⟩ := p
    show (if cat_data.places.map make_place_obj = [] then finalize_categories rest
          else (cat_key, cat_data.places.map make_place_obj) :: finalize_categories rest)
        = finalize_spec ((cat_key, cat_data) :: rest)
    unfold finalize_spec
    rw [List.filter_cons]
    cases h : cat_data.places with
    | nil => simp [h, ih, finalize_spec]
    | cons a l => simp [h, ih, finalize_spec]

/-- A category key appears in the finalized output iff some input entry
under that key has a non-empty places list. -/
theorem mem_finalize_categories_iff (cats : List (String × CatData)) (k : String) :
    (∃ v, (k, v) ∈ finalize_categories cats) ↔ ∃ cd, (k, cd) ∈ cats ∧ cd.places ≠ [] := by
  rw [finalize_categories_eq_spec]
  unfold finalize_spec
  constructor
  · rintro ⟨v, hv⟩
    rw [List.mem_map] at hv
    obtain ⟨⟨k2, cd⟩, hmem, heq⟩ := hv
    rw [List.mem_filter] at hmem
    obtain ⟨hin, hne⟩ := hmem
    obtain ⟨hk, -⟩ := Prod.mk.injEq .. ▸ heq
    refine ⟨cd, hk ▸ hin, ?_⟩
    simpa [List.isEmpty_iff] using hne
  · rintro ⟨cd, hin, hne⟩
    refine ⟨cd.places.map make_place_obj, ?_⟩
    rw [List.mem_map]
    refine ⟨(k, cd), ?_, rfl⟩
    rw [List.mem_filter]
    exact ⟨hin, by simpa [List.isEmpty_iff] using hne⟩

/-- C2: `finalize_result_node` flattens `research_data.categories` into
`{category: [{tourist_place_name, tourist_description, place_image_url}]}`
— each place mapped by `make_place_obj` (first photo URL or `""`,
name/description with `""` defaults) — and a category key appears in the
output iff its places list is non-empty. -/
theorem C2_finalize_flattens :
    (∀ s : PipelineState,
        (finalize_result_node s).final_result = finalize_spec s.research_data.categories) ∧
    (∀ cats : List (String × CatData), finalize_categories cats = finalize_spec cats) ∧
    (∀ (cats : List (String × CatData)) (k : String),
        (∃ v, (k, v) ∈ finalize_categories cats) ↔ ∃ cd, (k, cd) ∈ cats ∧ cd.places ≠ []) :=
  ⟨fun s => finalize_categories_eq_spec s.research_data.categories,
   finalize_categories_eq_spec, mem_finalize_categories_iff⟩

/-! ### C3 / C9: the enrichment stage -/

/-- The inner loop of `enrich_places_with_images` is a map. -/
theorem enrich_cat_places_eq_map (o : GoogleOracle) (api_key location : String)
    (places : List Place) :
    enrich_cat_places o api_key location places = places.map (enrich_one o api_key location) := by
  induction places with
  | nil => rfl
  | cons p rest ih => simp [enrich_cat_places, ih]

/-- `enrich_places_with_images` is a key-preserving map over categories. -/
theorem enrich_places_eq_map (o : GoogleOracle) (api_key location : String)
    (data : List (String × CatData)) :
    enrich_places_with_images o api_key location data
      = data.map (fun p =>
          (p.1, { p.2 with places := p.2.places.map (enrich_one o api_key location) })) := by
  induction data with
  | nil => rfl
  | cons p rest ih =>
    obtain ⟨c, cd⟩ := p
    simp [enrich_places_with_images, enrich_cat_places_eq_map, ih]

/-- C9: enrichment keeps exactly the input's category keys in order, every
category's places list keeps its length, and the record at each position
is `enrich_one` of the input record at the same position (no place is
dropped, added or reordered). -/
theorem C9_enrichment_preserves_structure (o : GoogleOracle) (api_key location : String)
    (places_data : List (String × CatData)) :
    (enrich_places_with_images o api_key location places_data
       = places_data.map (fun p =>
           (p.1, { p.2 with places := p.2.places.map (enrich_one o api_key location) }))) ∧
    ((enrich_places_with_images o api_key location places_data).map Prod.fst
       = places_data.map Prod.fst) ∧
    (∀ i : Nat,
       ((enrich_places_with_images o api_key location places_data).map
           (fun p => p.2.places.length)).getD i 0
         = (places_data.map (fun p => p.2.places.length)).getD i 0) ∧
    (∀ i : Nat,
       ((enrich_places_with_images o api_key location places_data).map
           (fun p => p.2.places)).getD i []
         = (places_data.map
             (fun p => p.2.places.map (enrich_one o api_key location))).getD i []) := by
  refine ⟨enrich_places_eq_map o api_key location places_data, ?_, ?_, ?_⟩
  · rw [enrich_places_eq_map]
    simp [List.map_map, Function.comp_def]
  · intro i
    rw [enrich_places_eq_map]
    have : (places_data.map (fun p =>
          (p.1, { p.2 with places := p.2.places.map (enrich_one o api_key location) }))).map
            (fun p => p.2.places.length)
        = places_data.map (fun p => p.2.places.length) := by
      simp [List.map_map, Function.comp_def]
    rw [this]
  · intro i
    rw [enrich_places_eq_map]
    have : (places_data.map (fun p =>
          (p.1, { p.2 with places := p.2.places.map (enrich_one o api_key location) }))).map
            (fun p => p.2.places)
        = places_data.map (fun p => p.2.places.map (enrich_one o api_key location)) := by
      simp [List.map_map, Function.comp_def]
    rw [this]

/-- C3: a place whose text-search lookup returns no results passes through
enrichment unchanged, at its own position. -/
theorem C3_lookup_failure_keeps_original (o : GoogleOracle) (api_key location : String) :
    (∀ place : Place,
        o.search place.name location = [] → enrich_one o api_key location place = place) ∧
    (∀ (places : List Place) (i : Nat),
        o.search ((places.getD i default).name) location = [] →
        (enrich_cat_places o api_key location places).getD i default = places.getD i default) := by
  have h1 : ∀ place : Place, o.search place.name location = [] →
      enrich_one o api_key location place = place := by
    intro place h
    unfold enrich_one
    rw [h]
  refine ⟨h1, ?_⟩
  intro places
  induction places with
  | nil =>
    intro i h
    simp [enrich_cat_places]
  | cons p rest ih =>
    intro i h
    cases i with
    | zero =>
      simp only [enrich_cat_places, List.getD_cons_zero] at h ⊢
      exact h1 p h
    | succ n =>
      simp only [enrich_cat_places, List.getD_cons_succ] at h ⊢
      exact ih n h

/-- A concrete Google oracle whose text search finds nothing. -/
def oracle_no_results : GoogleOracle :=
  { search := fun _ _ => [], details := fun _ => {} }

/-- C3 witness: with a search that returns no results, a concrete place
record is returned unchanged. -/
theorem C3_witness :
    enrich_one oracle_no_results "key" "Paris" { name := "Louvre Museum" }
      = { name := "Louvre Museum" } :=
  (C3_lookup_failure_keeps_original oracle_no_results "key" "Paris").1
    { name := "Louvre Museum" } rfl

/-! ### C7: the research stage -/

/-- Spec-side shape of one researched category (claim C7's words): a
category with places gets `ai_insights` written onto its first place only,
an empty category is untouched. -/
def research_spec_entry (agent : String → Except String String) (location : String)
    (p : String × CatData) : String × CatData :=
  match p.2.places with
  | [] => p
  | top :: others =>
    (p.1, { p.2 with places := { top with ai_insights := some ((get_place_insights agent top.name location).insights) } :: others })

/-- Spec-side insights call for one category (claim C7's words): one query
for the first place of a non-empty category, none for an empty one. -/
def research_trace_entry (location : String) (p : String × CatData) : Option String :=
  match p.2.places with
  | [] => none
  | top :: _ => some (insights_query top.name location)

/-- The research loop maps the categories (first place of a non-empty
category gets `ai_insights`) and traces one insights query per non-empty
category. -/
theorem research_categories_eq (agent : String → Except String String) (location : String)
    (data : List (String × CatData)) :
    research_categories agent location data
      = (data.map (research_spec_entry agent location),
         data.filterMap (research_trace_entry location)) := by
  induction data with
  | nil => rfl
  | cons p rest ih =>
    obtain ⟨category, cat_data⟩ := p
    cases h : cat_data.places with
    | nil => simp [research_categories, research_spec_entry, research_trace_entry, ih, h]
    | cons top others =>
      simp [research_categories, research_spec_entry, research_trace_entry, ih, h]

/-- C7: `enrich_with_research` issues exactly one location-overview query
plus one insights query per category with a non-empty places list,
attaches the insights to the first place of that category only, and both
`get_location_info` and `get_place_insights` turn a raised agent
exception into a placeholder record instead of propagating it. -/
theorem C7_research_calls_and_fallback (agent : String → Except String String)
    (data : List (String × CatData)) (location : String) :
    ((enrich_with_research agent data location).2
       = location_query location :: data.filterMap (research_trace_entry location)) ∧
    ((enrich_with_research agent data location).1.categories
       = data.map (research_spec_entry agent location)) ∧
    ((enrich_with_research agent data location).1.location_overview
       = get_location_info agent location) ∧
    (∀ e : String, agent (location_query location) = .error e →
        get_location_info agent location
          = { location := location
              description := "Unable to fetch detailed information about " ++ location
              sources := "Error" }) ∧
    (∀ (place_name e : String), agent (insights_query place_name location) = .error e →
        get_place_insights agent place_name location
          = { place := place_name
              insights := "Unable to fetch insights about " ++ place_name
              research_sources := "Error" }) := by
  refine ⟨?_, ?_, rfl, ?_, ?_⟩
  · show (location_query location :: (research_categories agent location data).2) = _
    rw [research_categories_eq]
  · show (research_categories agent location data).1 = _
    rw [research_categories_eq]
  · intro e h
    unfold get_location_info
    rw [h]
  · intro place_name e h
    unfold get_place_insights
    rw [h]

/-- A concrete agent whose every call raises. -/
def failing_agent : String → Except String String := fun _ => Except.error "boom"

/-- C7 witness: with an always-failing agent, the location overview is the
placeholder record. -/
theorem C7_witness :
    get_location_info failing_agent "Paris"
      = { location := "Paris"
          description := "Unable to fetch detailed information about " ++ "Paris"
          sources := "Error" } :=
  (C7_research_calls_and_fallback failing_agent [] "Paris").2.2.2.1 "boom" rfl

/-! ### C8: the category selection -/

/-- A key with a successful lookup is among the keys. -/
theorem lookup_some_mem_keys {l : List (String × String)} {k v : String}
    (h : List.lookup k l = some v) : k ∈ l.map Prod.fst := by
  induction l with
  | nil => simp [List.lookup] at h
  | cons p rest ih =>
    obtain ⟨k2, v2⟩ := p
    by_cases he : k = k2
    · simp [he]
    · have hbeq : (k == k2) = false := by simp [he]
      simp only [List.lookup, hbeq] at h
      simp only [List.map_cons, List.mem_cons]
      exact Or.inr (ih h)

/-- A key with a failed lookup is not among the keys. -/
theorem lookup_none_not_mem_keys {l : List (String × String)} {k : String}
    (h : List.lookup k l = none) : k ∉ l.map Prod.fst := by
  induction l with
  | nil => simp
  | cons p rest ih =>
    obtain ⟨k2, v2⟩ := p
    by_cases he : k = k2
    · subst he
      simp [List.lookup] at h
    · have hbeq : (k == k2) = false := by simp [he]
      simp only [List.lookup, hbeq] at h
      simp [he, ih h]

/-- Keys after a Python-style dict insert. -/
theorem mem_keys_dictInsert {d : List (String × String)} {k v x : String} :
    x ∈ (dictInsert d k v).map Prod.fst ↔ x ∈ d.map Prod.fst ∨ x = k := by
  unfold dictInsert
  by_cases h : d.any (fun p => decide (p.1 = k))
  · rw [if_pos h]
    have hk : k ∈ d.map Prod.fst := by
      rw [List.any_eq_true] at h
      obtain ⟨p, hp, hpk⟩ := h
      rw [decide_eq_true_eq] at hpk
      exact hpk ▸ List.mem_map_of_mem Prod.fst hp
    have hkeys : (d.map (fun p => if p.1 = k then (k, v) else p)).map Prod.fst
        = d.map Prod.fst := by
      rw [List.map_map]
      apply List.map_congr_left
      intro p hp
      by_cases hpk : p.1 = k
      · simp [hpk, Function.comp_def]
      · simp [hpk, Function.comp_def]
    rw [hkeys]
    constructor
    · exact Or.inl
    · rintro (hx | rfl)
      · exact hx
      · exact hk
  · rw [if_neg h]
    simp [List.map_append]

/-- Folding the selection step only ever introduces keys of `CATEGORIES`. -/
theorem mem_keys_foldl_select {sel : List String} {d : List (String × String)} {x : String}
    (hx : x ∈ (sel.foldl select_step d).map Prod.fst) :
    x ∈ d.map Prod.fst ∨ x ∈ CATEGORIES.map Prod.fst := by
  induction sel generalizing d with
  | nil => simpa using Or.inl hx
  | cons key rest ih =>
    rw [List.foldl_cons] at hx
    rcases ih hx with h | h
    · unfold select_step at h
      cases hlk : List.lookup key CATEGORIES with
      | none =>
        rw [hlk] at h
        exact Or.inl h
      | some v =>
        rw [hlk] at h
        rcases mem_keys_dictInsert.mp h with h2 | h2
        · exact Or.inl h2
        · exact Or.inr (h2 ▸ lookup_some_mem_keys hlk)
    · exact Or.inr h

/-- A key absent from `CATEGORIES` is never introduced by the selection
fold. -/
theorem not_mem_keys_foldl_select {sel : List String} {d : List (String × String)} {x : String}
    (hlk : List.lookup x CATEGORIES = none) (hd : x ∉ d.map Prod.fst) :
    x ∉ (sel.foldl select_step d).map Prod.fst := by
  induction sel generalizing d with
  | nil => simpa using hd
  | cons key rest ih =>
    rw [List.foldl_cons]
    apply ih
    unfold select_step
    cases hk : List.lookup key CATEGORIES with
    | none => exact hd
    | some v =>
      intro hmem
      rcases mem_keys_dictInsert.mp hmem with h | h
      · exact hd h
      · subst h
        simp [hlk] at hk

/-- Everything knowable about one entry of the `categorize_places` output:
its key was searched, its places list is non-empty, and its places are
exactly the filtered web results for its own category label. -/
theorem categorize_loop_mem {web : String → String → Except String (List Place)}
    {location : String} {cats : List (String × String)} {k : String} {cd : CatData}
    (h : (k, cd) ∈ categorize_loop web location cats) :
    k ∈ cats.map Prod.fst ∧ cd.places ≠ [] ∧
    cd.places = build_final_places
      (get_places_with_openai_web (web location (categoryDisplayName cd.category)) location) := by
  induction cats with
  | nil => simp [categorize_loop] at h
  | cons p rest ih =>
    obtain ⟨ck, cdesc⟩ := p
    by_cases hfp : build_final_places
        (get_places_with_openai_web (web location (categoryDisplayName cdesc)) location) = []
    · have h2 : (k, cd) ∈ categorize_loop web location rest := by
        simpa [categorize_loop, hfp] using h
      obtain ⟨h3, h4, h5⟩ := ih h2
      exact ⟨by simp [h3], h4, h5⟩
    · have hrw : categorize_loop web location ((ck, cdesc) :: rest) = (ck, { category := cdesc, places := build_final_places (get_places_with_openai_web (web location (categoryDisplayName cdesc)) location) }) :: categorize_loop web location rest := by
        simp [categorize_loop, hfp]
      rw [hrw] at h
      rcases List.mem_cons.mp h with heq | hmem
      · obtain ⟨hk, hcd⟩ := Prod.mk.injEq .. ▸ heq
        subst hk
        subst hcd
        exact ⟨by simp, hfp, rfl⟩
      · obtain ⟨h3, h4, h5⟩ := ih hmem
        exact ⟨by simp [h3], h4, h5⟩

/-- C8: `CATEGORIES` has exactly 10 keys; `categorize_places` searches
only keys present in `CATEGORIES` (a selected key outside the mapping is
silently ignored), and an absent `selected_categories` searches the full
mapping. -/
theorem C8_category_selection :
    CATEGORIES.length = 10 ∧
    categories_to_search none = CATEGORIES ∧
    (∀ (sel : List String) (k : String),
        k ∈ (categories_to_search (some sel)).map Prod.fst → k ∈ CATEGORIES.map Prod.fst) ∧
    (∀ (sel : List String) (k : String), List.lookup k CATEGORIES = none →
        k ∉ (categories_to_search (some sel)).map Prod.fst) ∧
    (∀ (web : String → String → Except String (List Place)) (location : String)
        (sel : Option (List String)) (k : String) (cd : CatData),
        (k, cd) ∈ categorize_places web location sel →
        k ∈ (categories_to_search sel).map Prod.fst) := by
  refine ⟨rfl, rfl, ?_, ?_, ?_⟩
  · intro sel k hk
    simp only [categories_to_search] at hk
    by_cases hs : sel = []
    · rw [if_pos hs] at hk
      exact hk
    · rw [if_neg hs] at hk
      rcases mem_keys_foldl_select hk with h | h
      · simp at h
      · exact h
  · intro sel k hlk
    simp only [categories_to_search]
    by_cases hs : sel = []
    · rw [if_pos hs]
      exact lookup_none_not_mem_keys hlk
    · rw [if_neg hs]
      exact not_mem_keys_foldl_select hlk (by simp)
  · intro web location sel k cd h
    exact (categorize_loop_mem h).1

/-- C8 witness: a concrete invalid selected key is silently ignored. -/
theorem C8_witness :
    "bogus" ∉ (categories_to_search (some ["bogus", "natural_attractions"])).map Prod.fst :=
  C8_category_selection.2.2.2.1 ["bogus", "natural_attractions"] "bogus" rfl

/-! ### C5: the per-category bound the prompt asks for is not enforced -/

/-- Nine distinct place records that pass every relevance and quality
filter. -/
def nine_places : List Place :=
  [{ name := "Emerald Lake" }, { name := "Granite Peak" }, { name := "Silver Falls" },
   { name := "Crystal Cave" }, { name := "Sunrise Ridge" }, { name := "Willow Canyon" },
   { name := "Marble Gorge" }, { name := "Cedar Grove" }, { name := "Amber Springs" }]

/-- A web-search oracle whose parsed response always carries the nine
places above. -/
def nine_web : String → String → Except String (List Place) := fun _ _ => Except.ok nine_places

/-- C5 counterexample: an LLM web-search response carrying nine
filter-passing places makes `categorize_places` emit a category with nine
records — more than the claimed bound of 8 per category. -/
theorem C5_counterexample :
    ((categorize_places nine_web "Paris" (some ["natural_attractions"])).map
        (fun p => (p.1, p.2.places.length)) = [("natural_attractions", 9)]) ∧
    ((categorize_places nine_web "Paris" (some ["natural_attractions"])).all
        (fun p => decide (p.2.places.length ≤ 8)) = false) := by
  constructor
  · decide
  · decide

/-- The quality filter never adds entries. -/
theorem build_final_places_length_le (l : List Place) :
    (build_final_places l).length ≤ l.length :=
  List.length_filterMap_le _ _

/-- C5 (amended): the prompt asks the LLM for 1-8 places per category but
`categorize_places` does not enforce the bound; each emitted category's
places are exactly the response entries that pass
`filter_irrelevant_results` and the quality filter, so the per-category
count is bounded by the response size — which can exceed 8 — and by
nothing else. -/
theorem C5_no_enforced_bound (web : String → String → Except String (List Place))
    (location : String) (selected : Option (List String)) :
    (∀ (response : Except String (List Place)) (loc : String),
        (build_final_places (get_places_with_openai_web response loc)).length
          ≤ response_size response) ∧
    (∀ (k : String) (cd : CatData), (k, cd) ∈ categorize_places web location selected →
        cd.places ≠ [] ∧
        cd.places = build_final_places
          (get_places_with_openai_web (web location (categoryDisplayName cd.category)) location)) := by
  constructor
  · intro response loc
    cases response with
    | error e => simp [get_places_with_openai_web, build_final_places, response_size]
    | ok l =>
      calc (build_final_places (get_places_with_openai_web (.ok l) loc)).length
          ≤ (get_places_with_openai_web (.ok l) loc).length :=
            build_final_places_length_le _
        _ = (filter_irrelevant_results l loc).length := rfl
        _ ≤ l.length := filter_irrelevant_length_le l loc
        _ = response_size (.ok l) := rfl
  · intro k cd h
    exact ⟨(categorize_loop_mem h).2.1, (categorize_loop_mem h).2.2⟩

/-- C5 witness: the amended bound evaluated on the nine-place response. -/
theorem C5_witness :
    (build_final_places (get_places_with_openai_web (Except.ok nine_places) "Paris")).length
      ≤ response_size (Except.ok nine_places) :=
  (C5_no_enforced_bound nine_web "Paris" (some ["natural_attractions"])).1
    (Except.ok nine_places) "Paris"

/-! ### C6: photo URLs of an enriched place -/

/-- A text-search result whose only photo carries the `photo_reference`
field with the falsy value `""`. -/
def empty_ref_gplace : GPlace := { photos := [{ photo_reference := some "" }] }

/-- A Google oracle that always finds `empty_ref_gplace`. -/
def empty_ref_oracle : GoogleOracle :=
  { search := fun _ _ => [empty_ref_gplace], details := fun _ => {} }

/-- C6 counterexample: a photo that carries the `photo_reference` field
with value `""` yields no photo URL (Python truthiness of the reference),
while the claim as stated predicts one URL for every first-3 photo that
carries the field. -/
theorem C6_counterexample :
    ((enrich_one empty_ref_oracle "key" "Paris" { name := "Louvre" }).photos = []) ∧
    ((empty_ref_gplace.photos.take 3).filterMap
        (fun photo => photo.photo_reference.map (get_photo_url "key"))
      = [get_photo_url "key" ""]) ∧
    ((enrich_one empty_ref_oracle "key" "Paris" { name := "Louvre" }).photos.length
      ≠ ((empty_ref_gplace.photos.take 3).filterMap
          (fun photo => photo.photo_reference.map (get_photo_url "key"))).length) := by
  refine ⟨rfl, rfl, by decide⟩

/-- C6 (amended): when the text search succeeds, the enriched record's
photos are one URL for each of the first up-to-3 photos that carry a
non-empty `photo_reference`, hence at most 3 URLs. -/
theorem C6_photo_urls_bounded (o : GoogleOracle) (api_key location : String) (place : Place)
    (gp : GPlace) (rest : List GPlace) (h : o.search place.name location = gp :: rest) :
    (enrich_one o api_key location place).photos
      = (gp.photos.take 3).filterMap (fun photo =>
          match photo.photo_reference with
          | some r => if r = "" then none else some (get_photo_url api_key r)
          | none => none) ∧
    (enrich_one o api_key location place).photos.length ≤ 3 := by
  have hp : (enrich_one o api_key location place).photos
      = (gp.photos.take 3).filterMap (fun photo =>
          match photo.photo_reference with
          | some r => if r = "" then none else some (get_photo_url api_key r)
          | none => none) := by
    unfold enrich_one
    rw [h]
  refine ⟨hp, ?_⟩
  rw [hp]
  calc ((gp.photos.take 3).filterMap _).length
      ≤ (gp.photos.take 3).length := List.length_filterMap_le _ _
    _ ≤ 3 := by
        rw [List.length_take]
        exact Nat.min_le_left 3 _

/-- C6 witness: the amended statement evaluated at a concrete oracle. -/
theorem C6_witness :
    ((enrich_one empty_ref_oracle "key" "Paris" { name := "Louvre" }).photos
      = (empty_ref_gplace.photos.take 3).filterMap (fun photo =>
          match photo.photo_reference with
          | some r => if r = "" then none else some (get_photo_url "key" r)
          | none => none)) ∧
    ((enrich_one empty_ref_oracle "key" "Paris" { name := "Louvre" }).photos.length ≤ 3) :=
  C6_photo_urls_bounded empty_ref_oracle "key" "Paris" { name := "Louvre" }
    empty_ref_gplace [] rfl

/-! ### C10: request validation of POST /recommendations -/

/-- C10: an empty or whitespace-only `place_name` and any selected
category outside `CATEGORIES` each yield HTTP 400 with a detail message
and no pipeline invocation; an omitted `categories` falls back to the
first three `CATEGORIES` keys. -/
theorem C10_request_validation
    (pipeline : String → List String → List (String × List FinalPlace))
    (place_name : String) (categories : Option (List String)) :
    (strTrim place_name = "" →
        api_recommendations pipeline place_name categories
          = (.error { status := 400, detail := "Place name is required" }, [])) ∧
    (∀ (cats : List String) (c : String),
        categories = some cats → c ∈ cats → List.lookup c CATEGORIES = none →
        errStatus (api_recommendations pipeline place_name categories).1 = some 400 ∧
        (api_recommendations pipeline place_name categories).2 = []) ∧
    (strTrim place_name ≠ "" → categories = none →
        api_recommendations pipeline place_name categories
          = (.ok { place_name := strTrim place_name
                   selected_categories := default_selected_categories
                   recommendations := pipeline (strTrim place_name) default_selected_categories },
             [(strTrim place_name, default_selected_categories)])) ∧
    default_selected_categories = ["natural_attractions", "cultural_heritage", "urban_modern"] ∧
    (CATEGORIES.map Prod.fst).take 3
      = ["natural_attractions", "cultural_heritage", "urban_modern"] := by
  refine ⟨?_, ?_, ?_, rfl, rfl⟩
  · intro h
    unfold api_recommendations
    rw [if_pos h]
  · intro cats c hc hmem hlk
    subst hc
    by_cases h0 : strTrim place_name = ""
    · have := (show api_recommendations pipeline place_name (some cats) = (.error { status := 400, detail := "Place name is required" }, []) from by unfold api_recommendations; rw [if_pos h0])
      rw [this]
      exact ⟨rfl, rfl⟩
    · have hcats : ¬ cats = [] := by
        rintro rfl
        simp at hmem
      have hinv : ¬ cats.filter (fun c2 => (List.lookup c2 CATEGORIES).isNone) = [] := by
        intro hnil
        have hcmem : c ∈ cats.filter (fun c2 => (List.lookup c2 CATEGORIES).isNone) := by
          rw [List.mem_filter]
          exact ⟨hmem, by simp [hlk]⟩
        rw [hnil] at hcmem
        simp at hcmem
      have hres : api_recommendations pipeline place_name (some cats) = (.error { status := 400, detail := invalid_categories_detail (cats.filter (fun c2 => (List.lookup c2 CATEGORIES).isNone)) }, []) := by
        unfold api_recommendations
        rw [if_neg h0]
        simp only [if_neg hcats, if_neg hinv]
      rw [hres]
      exact ⟨rfl, rfl⟩
  · intro h hc
    subst hc
    unfold api_recommendations
    rw [if_neg h]

/-- C10 witness: a whitespace-only place name yields the 400 error and no
pipeline call. -/
theorem C10_witness :
    api_recommendations (fun _ _ => []) "   " none
      = (.error { status := 400, detail := "Place name is required" }, []) :=
  (C10_request_validation (fun _ _ => []) "   " none).1 rfl

end Travel
